import Mathlib

/-!
Multi-locale interop (MLI) runtime: driver and worker.

A shallow embedding of `runtime/etc/src/mli/server_runtime.c` (the worker,
`chpl_mli_smain`) and `runtime/etc/src/mli/client_runtime.c` (the driver,
`chpl_library_init` / `chpl_library_finalize`).

Every call that reaches the transport is recorded as an `Event`, so a run of a
function is its final state together with the trace of events it performed.
`chpl_mli_debugf` and `mli_free` calls and the `clock` bookkeeping have no effect
on the traced behaviour and are left out.
-/

namespace MLI

/-! ## Data model -/

/-- A C string is the list of its characters, terminator excluded. -/
abbrev CStr := List Char

/-- The terminator character of a C string. -/
def NUL : Char := Char.ofNat 0

/-- The four sockets held by a `struct chpl_mli_context`. -/
inductive Sock
  | setup_sock
  | main
  | arg
  | res
  deriving DecidableEq

/-- Modelled from the spec: the payload of one transport message handled by
`chpl_mli_push` / `chpl_mli_pull` (both live in `mli/common_code.c`, which is
not among the sources).  A message is either an integer object of `size` bytes
sent as its object representation (`word`), or a run of characters (`bytes`).
Messages are framed: one send is one receive. -/
inductive Msg
  | word (size : Nat) (v : Int)
  | bytes (b : List Char)
  deriving DecidableEq

/-- Observable actions of either process. -/
inductive Event
  | ctx_new
  | socket (s : Sock)
  | ctx_destroy
  | bind (s : Sock)
  | connect (s : Sock) (addr : CStr)
  | push (s : Sock) (m : Msg)
  | pull (s : Sock)
  | close (s : Sock)
  | launch (argc : Nat) (argv : List (Option CStr))
  | sdispatch (id : Int)
  deriving DecidableEq

/-- The members of `enum chpl_mli_errors` used by the two runtimes.  The enum is
declared in `mli/common_code.c`; its numeric values are parameters here. -/
structure chpl_mli_errors where
  CHPL_MLI_CODE_NONE : Int
  CHPL_MLI_CODE_SHUTDOWN : Int
  CHPL_MLI_CODE_ESOCKET : Int
  deriving DecidableEq

/-- An assignment of the codes that agrees with the spec: "none" is `0`, the
control codes are negative and pairwise distinct. -/
def example_codes : chpl_mli_errors :=
  { CHPL_MLI_CODE_NONE := 0, CHPL_MLI_CODE_SHUTDOWN := -3, CHPL_MLI_CODE_ESOCKET := -4 }

/-- The `struct chpl_mli_context`: each field records whether the handle is
non-NULL. -/
structure chpl_mli_context where
  context : Bool
  setup_sock : Bool
  main : Bool
  arg : Bool
  res : Bool
  deriving DecidableEq

/-- A zero-initialised global `struct chpl_mli_context`. -/
def chpl_mli_context.zero : chpl_mli_context :=
  { context := false, setup_sock := false, main := false, arg := false, res := false }

/-- The result of running a function: final state, events performed, and whether
the function returned (`false`: it is blocked in a receive that has no message,
or it left the model). -/
structure Run (σ : Type) where
  state : σ
  trace : List Event
  returned : Bool

/-! ## Worker: the dispatch loop of `chpl_mli_smain` -/

/-- The local variables of `chpl_mli_smain` that the loop reads and writes. -/
structure Worker where
  id : Int
  ack : Int
  execute : Bool
  err : Int
  deriving DecidableEq

/-- What the environment supplies in one round of the loop: the result of
`chpl_mli_pull` on `main` (`err`) and what it stored into `id` (`data`, `none`
when the buffer is left untouched), the result of `chpl_mli_push` on `main`, and
the value `chpl_mli_sdispatch` returns if it is called in this round. -/
structure Round where
  err : Int
  data : Option Int
  push_err : Int
  ret : Int
  deriving DecidableEq

/-- The locals of `chpl_mli_smain` at loop entry: `id = -1`, `ack = 0`,
`execute = 1`, `err = 0`. -/
def Worker.init : Worker :=
  { id := -1, ack := 0, execute := true, err := 0 }

/-- One iteration of `while (execute) { ... }` in `chpl_mli_smain`. -/
def loop_body (c : chpl_mli_errors) (w : Worker) (r : Round) : Worker × List Event :=
  -- err = chpl_mli_pull(chpl_server.main, &id, sizeof(id), 0);
  let w1 : Worker := { w with err := r.err, id := r.data.getD w.id }
  -- if (err < 0) { ack = CHPL_MLI_CODE_ESOCKET; }
  let w2 : Worker := if w1.err < 0 then { w1 with ack := c.CHPL_MLI_CODE_ESOCKET } else w1
  -- if (id < 0) { ack = SHUTDOWN; execute = 0; } else { ack = NONE; }
  let w3 : Worker :=
    if w2.id < 0 then { w2 with ack := c.CHPL_MLI_CODE_SHUTDOWN, execute := false }
    else { w2 with ack := c.CHPL_MLI_CODE_NONE }
  -- err = chpl_mli_push(chpl_server.main, &ack, sizeof(ack), 0);
  let w4 : Worker := { w3 with err := r.push_err }
  let sent : List Event := [Event.pull Sock.main, Event.push Sock.main (Msg.word 8 w3.ack)]
  -- if (execute && id > 0) { ack = chpl_mli_sdispatch(id); }
  if w4.execute && decide (w4.id > 0) then
    ({ w4 with ack := r.ret }, sent ++ [Event.sdispatch w4.id])
  else
    (w4, sent)

/-- The loop `while (execute) { ... }` of `chpl_mli_smain`, run against the
rounds the environment supplies.  When the rounds are used up while `execute`
is still set, the worker is blocked in its receive on `main`. -/
def worker_loop (c : chpl_mli_errors) : Worker → List Round → Run Worker
  | w, [] => { state := w, trace := [], returned := !w.execute }
  | w, r :: rs =>
    if w.execute then
      let step := loop_body c w r
      let rest := worker_loop c step.1 rs
      { rest with trace := step.2 ++ rest.trace }
    else
      { state := w, trace := [], returned := true }

/-- The identifiers passed to `chpl_mli_sdispatch`, in call order. -/
def dispatched : List Event → List Int
  | [] => []
  | Event.sdispatch id :: es => id :: dispatched es
  | _ :: es => dispatched es

/-- The number of receives performed on socket `s`. -/
def pulls (s : Sock) (tr : List Event) : Nat :=
  tr.count (Event.pull s)

/-- A round whose receive succeeds and stores `id`. -/
def Round.ok (id : Int) (ret : Int) : Round :=
  { err := 8, data := some id, push_err := 8, ret := ret }

/-- A round whose receive fails with `-1` and leaves the buffer untouched. -/
def Round.fail (ret : Int) : Round :=
  { err := -1, data := none, push_err := 8, ret := ret }

/-! ## Address records on the setup channel -/

/-- Conversion of a value to the 32-bit two's complement `int`. -/
def to_int (n : Int) : Int :=
  (n + 2 ^ 31) % 2 ^ 32 - 2 ^ 31

/-- The C library `strlen`, on the characters found at a pointer: the number of
characters before the first terminator. -/
def strlen (s : List Char) : Nat :=
  (s.takeWhile (fun ch => ch != NUL)).length

/-- The function `chpl_mli_push_connection` of the worker.  The memory at
`connection` holds the characters of the string followed by its terminator.
A negative `len` converts to a byte count beyond the string, which leaves the
model after the first send. -/
def chpl_mli_push_connection (connection : CStr) : Run Unit :=
  -- int len = strlen(connection) + 1;
  let len : Int := to_int ((strlen connection : Int) + 1)
  -- chpl_mli_push(chpl_server.setup_sock, &len, sizeof(len), 0);
  let first := Event.push Sock.setup_sock (Msg.word 4 len)
  if len < 0 then
    { state := (), trace := [first], returned := false }
  else
    -- chpl_mli_push(chpl_server.setup_sock, (void*)connection, len, 0);
    let second := Event.push Sock.setup_sock (Msg.bytes ((connection ++ [NUL]).take len.toNat))
    { state := (), trace := [first, second], returned := true }

/-- The messages sent on socket `s`, in order. -/
def pushed (s : Sock) : List Event → List Msg
  | [] => []
  | Event.push t m :: es => if t = s then m :: pushed s es else pushed s es
  | _ :: es => pushed s es

/-- A block returned by `mli_malloc`: the number of bytes requested, the memory
found at the returned pointer (offsets at and past `size` are the memory that
follows the block), and the offsets stored to so far, in program order. -/
structure Block where
  size : Nat
  mem : Nat → Char
  stores : List Nat

/-- The store `p[i] = v`. -/
def Block.store (b : Block) (i : Nat) (v : Char) : Block :=
  { b with mem := fun j => if j = i then v else b.mem j, stores := b.stores ++ [i] }

/-- Storing a run of characters at consecutive offsets starting at `i`. -/
def Block.store_all (b : Block) : Nat → List Char → Block
  | _, [] => b
  | i, ch :: rest => (b.store i ch).store_all (i + 1) rest

/-- Whether every store made so far lies inside the allocation. -/
def Block.in_bounds (b : Block) : Bool :=
  b.stores.all (fun i => decide (i < b.size))

/-- The C string read at the start of a block.  The scan stops at the first
terminator; `chpl_mli_pull_connection` has stored one at offset `size`. -/
def Block.c_str (b : Block) : CStr :=
  ((List.range (b.size + 1)).map b.mem).takeWhile (fun ch => ch != NUL)

/-- What `chpl_mli_pull_connection` leaves behind: the pointer it returns
(`none` when it does not return), the messages still queued on the setup
socket, and the receives it performed. -/
structure Pulled where
  conn : Option Block
  queue : List Msg
  trace : List Event

/-- Modelled from the spec: `chpl_mli_pull` (in `mli/common_code.c`, not among
the sources) receiving into an `int` object, `sizeof(int) = 4`.  The next
message must be an integer object of that size; `none` when no such message is
queued. -/
def chpl_mli_pull_int (q : List Msg) : Option (Int × List Msg) :=
  match q with
  | Msg.word sz v :: rest => if sz = 4 then some (v, rest) else none
  | _ => none

/-- Modelled from the spec: `chpl_mli_pull` (in `mli/common_code.c`, not among
the sources) receiving into the character buffer `conn` with room for `n`
bytes.  The next message must be a run of characters; the receive truncates it
to `n` and stores it from offset `0` on; `none` when no such message is
queued. -/
def chpl_mli_pull_chars (conn : Block) (n : Nat) (q : List Msg) : Option (Block × List Msg) :=
  match q with
  | Msg.bytes b :: rest => some (conn.store_all 0 (b.take n), rest)
  | _ => none

/-- The function `chpl_mli_pull_connection` of the driver, run against the
messages `q` queued on the setup socket.  Freshly allocated memory holds `heap`.
The function does not return when a receive finds no fitting message, or when
the length received is negative. -/
def chpl_mli_pull_connection (heap : Nat → Char) (q : List Msg) : Pulled :=
  let recv := Event.pull Sock.setup_sock
  -- chpl_mli_pull(chpl_client.setup_sock, &len, sizeof(len), 0);
  match chpl_mli_pull_int q with
  | none => { conn := none, queue := q, trace := [recv] }
  | some (len, q1) =>
    if len < 0 then { conn := none, queue := q1, trace := [recv] }
    else
      -- char* conn = mli_malloc(len);
      let conn : Block := { size := len.toNat, mem := heap, stores := [] }
      -- chpl_mli_pull(chpl_client.setup_sock, (void*)conn, len, 0);
      match chpl_mli_pull_chars conn len.toNat q1 with
      | none => { conn := none, queue := q1, trace := [recv, recv] }
      | some (conn, q2) =>
        -- conn[len] = (char)0;
        let conn := conn.store len.toNat NUL
        { conn := some conn, queue := q2, trace := [recv, recv] }

/-- The block `chpl_mli_pull_connection` returns once it has received the length
`L` and the characters `b`: the received characters stored from offset `0`, then
the terminator stored at offset `L`. -/
def pulled_block (heap : Nat → Char) (L : Nat) (b : List Char) : Block :=
  (({ size := L, mem := heap, stores := [] } : Block).store_all 0 (b.take L)).store L NUL

/-! ## Driver: `chpl_library_init` and `chpl_library_finalize` -/

/-- The driver's global `chpl_client` and the two function-local statics. -/
structure Driver where
  chpl_client : chpl_mli_context
  initialized : Bool
  finalized : Bool
  deriving DecidableEq

/-- The driver process at start-up: every global is zero. -/
def Driver.start : Driver :=
  { chpl_client := chpl_mli_context.zero, initialized := false, finalized := false }

/-- The function `chpl_mli_client_init`. -/
def chpl_mli_client_init (client : chpl_mli_context) : chpl_mli_context × List Event :=
  if client.context then (client, [])
  else
    ({ context := true, setup_sock := true, main := true, arg := true, res := true },
     [Event.ctx_new, Event.socket Sock.setup_sock, Event.socket Sock.main,
      Event.socket Sock.arg, Event.socket Sock.res])

/-- The function `chpl_mli_client_deinit`. -/
def chpl_mli_client_deinit (client : chpl_mli_context) : chpl_mli_context × List Event :=
  if !client.context then (client, [])
  else ({ client with context := false }, [Event.ctx_destroy])

/-- The flag token placed before the setup address. -/
def socket_loc_flag : CStr := "--chpl-mli-socket-loc".toList

/-- The loop `for (int i = 0; i < argc; i++) argv_plus_sock[i] = argv[i];` with
`n` iterations left and loop counter `i`. -/
def copy_args (argv : List CStr) : Nat → Nat → List (Option CStr) → List (Option CStr)
  | 0, _, buf => buf
  | n + 1, i, buf => copy_args argv n (i + 1) (buf.set i argv[i]?)

/-- The extended vector `argv_plus_sock` built by `chpl_library_init`; an entry
is `none` while it is uninitialised. -/
def argv_plus_sock (argv : List CStr) (setup_sock_conn : CStr) : List (Option CStr) :=
  let argc := argv.length
  let argc_plus_sock := argc + 2
  -- char** argv_plus_sock = mli_malloc(argc_plus_sock * sizeof(char*));
  let buf : List (Option CStr) := List.replicate argc_plus_sock none
  let buf := copy_args argv argc 0 buf
  -- argv_plus_sock[argc] = "--chpl-mli-socket-loc";
  let buf := buf.set argc (some socket_loc_flag)
  -- argv_plus_sock[argc + 1] = setup_sock_conn;
  buf.set (argc + 1) (some setup_sock_conn)

/-- The memory seen from the pointer `p`: offset `j` is address `p + j`. -/
def view (mem : Nat → Char) (p : Nat) : Nat → Char :=
  fun j => mem (p + j)

/-- The memory once the stores made through the pointer `p` are in place: from
address `p` on it holds what the block holds at the matching offset. -/
def write_back (mem : Nat → Char) (p : Nat) (b : Block) : Nat → Char :=
  fun a => if p ≤ a then b.mem (a - p) else mem a

/-- Whether a terminator is found at an offset up to `size`, so that the scan of
`Block.c_str` reads the whole string. -/
def Block.terminated (b : Block) : Bool :=
  ((List.range (b.size + 1)).map b.mem).any (fun ch => ch == NUL)

/-- The function `chpl_library_init`, called with the vector `argv` (so `argc`
is its length).  `setup_sock_conn` is the address `chpl_mli_connection_info`
reports for the bound setup socket, `q` the messages that arrive on it.  The
call `chpl_mli_client_launch(argc_plus_sock, argv_plus_sock)` is the event
`launch`.

The three address buffers live in one memory, `heap` at the start; `main_at`,
`arg_at` and `res_at` are the pointers `mli_malloc` returns in the three calls
of `chpl_mli_pull_connection`.  Every store of a call is in place before the
next call runs, and the strings are read by `chpl_mli_connect` after all three
calls.  A string with no terminator up to offset `size` leaves the model. -/
def chpl_library_init (d : Driver) (argv : List CStr) (setup_sock_conn : CStr)
    (heap : Nat → Char) (main_at arg_at res_at : Nat) (q : List Msg) : Run Driver :=
  -- if (initialized) { return; }
  if d.initialized then { state := d, trace := [], returned := true }
  else
    let d := { d with initialized := true }
    let ini := chpl_mli_client_init d.chpl_client
    let d := { d with chpl_client := ini.1 }
    let tr := ini.2 ++ [Event.bind Sock.setup_sock]
    let tr := tr ++ [Event.launch (argv.length + 2) (argv_plus_sock argv setup_sock_conn)]
    -- char* main_conn = chpl_mli_pull_connection();
    let p1 := chpl_mli_pull_connection (view heap main_at) q
    let tr := tr ++ p1.trace
    match p1.conn with
    | none => { state := d, trace := tr, returned := false }
    | some main_conn =>
      let mem := write_back heap main_at main_conn
      -- char* arg_conn = chpl_mli_pull_connection();
      let p2 := chpl_mli_pull_connection (view mem arg_at) p1.queue
      let tr := tr ++ p2.trace
      match p2.conn with
      | none => { state := d, trace := tr, returned := false }
      | some arg_conn =>
        let mem := write_back mem arg_at arg_conn
        -- char* res_conn = chpl_mli_pull_connection();
        let p3 := chpl_mli_pull_connection (view mem res_at) p2.queue
        let tr := tr ++ p3.trace
        match p3.conn with
        | none => { state := d, trace := tr, returned := false }
        | some res_conn =>
          let mem := write_back mem res_at res_conn
          let main_conn : Block := { main_conn with mem := view mem main_at }
          let arg_conn : Block := { arg_conn with mem := view mem arg_at }
          let res_conn : Block := { res_conn with mem := view mem res_at }
          -- chpl_mli_connect(chpl_client.main, main_conn);
          if !main_conn.terminated then { state := d, trace := tr, returned := false }
          else
            let tr := tr ++ [Event.connect Sock.main main_conn.c_str]
            -- chpl_mli_connect(chpl_client.arg, arg_conn);
            if !arg_conn.terminated then { state := d, trace := tr, returned := false }
            else
              let tr := tr ++ [Event.connect Sock.arg arg_conn.c_str]
              -- chpl_mli_connect(chpl_client.res, res_conn);
              if !res_conn.terminated then { state := d, trace := tr, returned := false }
              else
                let tr := tr ++ [Event.connect Sock.res res_conn.c_str]
                { state := d, trace := tr, returned := true }

/-- The endpoint connections made, in order. -/
def connects : List Event → List (Sock × CStr)
  | [] => []
  | Event.connect s a :: es => (s, a) :: connects es
  | _ :: es => connects es

/-- The launcher invocations made, in order. -/
def launches : List Event → List (Nat × List (Option CStr))
  | [] => []
  | Event.launch n v :: es => (n, v) :: launches es
  | _ :: es => launches es

/-- The outcome of the receive in `chpl_library_finalize`: its result and the
value stored into `shutdown` (`none` when the buffer is left untouched). -/
structure Reply where
  err : Int
  data : Option Int
  deriving DecidableEq

/-- The function `chpl_library_finalize`; `echo` is what its receive on `main`
yields. -/
def chpl_library_finalize (c : chpl_mli_errors) (d : Driver) (echo : Reply) : Run Driver :=
  -- if (finalized) { return; }
  if d.finalized then { state := d, trace := [], returned := true }
  else
    let d := { d with finalized := true }
    let shutdown : Int := c.CHPL_MLI_CODE_SHUTDOWN
    let tr := [Event.push Sock.main (Msg.word 8 shutdown), Event.pull Sock.main]
    let shutdown : Int := echo.data.getD shutdown
    -- if (shutdown != CHPL_MLI_CODE_SHUTDOWN) { ;;; }
    let tr := if shutdown != c.CHPL_MLI_CODE_SHUTDOWN then tr else tr
    let tr := tr ++ [Event.close Sock.setup_sock, Event.close Sock.main,
                     Event.close Sock.arg, Event.close Sock.res]
    let fin := chpl_mli_client_deinit d.chpl_client
    { state := { d with chpl_client := fin.1 }, trace := tr ++ fin.2, returned := true }

/-- Successive calls of `chpl_library_finalize`, one per reply supplied. -/
def finalize_calls (c : chpl_mli_errors) : Driver → List Reply → Driver × List Event
  | d, [] => (d, [])
  | d, e :: es =>
    let r := chpl_library_finalize c d e
    let rest := finalize_calls c r.state es
    (rest.1, r.trace ++ rest.2)

/-! ## Worker: `chpl_mli_smain` -/

/-- The function `chpl_mli_server_init`. -/
def chpl_mli_server_init (server : chpl_mli_context) : chpl_mli_context × List Event :=
  if server.context then (server, [])
  else
    ({ context := true, setup_sock := true, main := true, arg := true, res := true },
     [Event.ctx_new, Event.socket Sock.setup_sock, Event.socket Sock.main,
      Event.socket Sock.arg, Event.socket Sock.res])

/-- The function `chpl_mli_server_deinit`. -/
def chpl_mli_server_deinit (server : chpl_mli_context) : chpl_mli_context × List Event :=
  if !server.context then (server, [])
  else ({ server with context := false }, [Event.ctx_destroy])

/-- The function `chpl_mli_smain`.  `main_conn`, `arg_conn` and `res_conn` are
the addresses `chpl_mli_connection_info` reports for the three sockets once
bound; `rounds` is what the environment supplies to the dispatch loop. -/
def chpl_mli_smain (c : chpl_mli_errors) (chpl_server : chpl_mli_context)
    (setup_conn main_conn arg_conn res_conn : CStr) (rounds : List Round) :
    Run (chpl_mli_context × Worker) :=
  let w := Worker.init
  let ini := chpl_mli_server_init chpl_server
  let server := ini.1
  let tr := ini.2 ++ [Event.connect Sock.setup_sock setup_conn]
  let tr := tr ++ [Event.bind Sock.main, Event.bind Sock.arg, Event.bind Sock.res]
  -- Send main, arg, res connection info to the client
  let s1 := chpl_mli_push_connection main_conn
  let tr := tr ++ s1.trace
  if !s1.returned then { state := (server, w), trace := tr, returned := false }
  else
    let s2 := chpl_mli_push_connection arg_conn
    let tr := tr ++ s2.trace
    if !s2.returned then { state := (server, w), trace := tr, returned := false }
    else
      let s3 := chpl_mli_push_connection res_conn
      let tr := tr ++ s3.trace
      if !s3.returned then { state := (server, w), trace := tr, returned := false }
      else
        let run := worker_loop c w rounds
        let tr := tr ++ run.trace
        if !run.returned then { state := (server, run.state), trace := tr, returned := false }
        else
          let tr := tr ++ [Event.close Sock.setup_sock, Event.close Sock.main,
                           Event.close Sock.arg, Event.close Sock.res]
          let fin := chpl_mli_server_deinit server
          { state := (fin.1, run.state), trace := tr ++ fin.2, returned := true }

/-! ## Lemmas on traces -/

theorem dispatched_append (a b : List Event) :
    dispatched (a ++ b) = dispatched a ++ dispatched b := by
  induction a with
  | nil => rfl
  | cons e a ih => cases e <;> simp [dispatched, ih]

theorem pushed_append (s : Sock) (a b : List Event) :
    pushed s (a ++ b) = pushed s a ++ pushed s b := by
  induction a with
  | nil => rfl
  | cons e a ih =>
    cases e <;> simp [pushed, ih]
    split <;> simp

theorem connects_append (a b : List Event) :
    connects (a ++ b) = connects a ++ connects b := by
  induction a with
  | nil => rfl
  | cons e a ih => cases e <;> simp [connects, ih]

theorem launches_append (a b : List Event) :
    launches (a ++ b) = launches a ++ launches b := by
  induction a with
  | nil => rfl
  | cons e a ih => cases e <;> simp [launches, ih]

/-! ## Lemmas on the dispatch loop -/

theorem worker_loop_stopped (c : chpl_mli_errors) (w : Worker) (rs : List Round)
    (h : w.execute = false) :
    worker_loop c w rs = { state := w, trace := [], returned := true } := by
  cases rs with
  | nil => simp [worker_loop, h]
  | cons r rs => simp [worker_loop, h]

theorem worker_loop_append (c : chpl_mli_errors) (w : Worker) (pre rs : List Round)
    (h : (worker_loop c w pre).state.execute = true) :
    worker_loop c w (pre ++ rs) =
      { worker_loop c (worker_loop c w pre).state rs with
        trace := (worker_loop c w pre).trace ++
          (worker_loop c (worker_loop c w pre).state rs).trace } := by
  induction pre generalizing w with
  | nil => simp [worker_loop]
  | cons r pre ih =>
    by_cases hw : w.execute = true
    · simp only [worker_loop, hw, if_true] at h
      rw [List.cons_append]
      simp only [worker_loop, hw, if_true]
      rw [ih _ h]
      simp [List.append_assoc]
    · simp [worker_loop, hw] at h

theorem loop_body_positive (c : chpl_mli_errors) (w : Worker) (r : Round) (N : Int)
    (hexec : w.execute = true) (hdata : r.data = some N) (hpos : N > 0) :
    loop_body c w r =
      ({ id := N, ack := r.ret, execute := true, err := r.push_err },
       [Event.pull Sock.main, Event.push Sock.main (Msg.word 8 c.CHPL_MLI_CODE_NONE),
        Event.sdispatch N]) := by
  have h1 : ¬ N < 0 := by omega
  by_cases he : r.err < 0 <;> simp [loop_body, hdata, hexec, h1, hpos, he]

theorem loop_body_negative (c : chpl_mli_errors) (w : Worker) (r : Round) (N : Int)
    (hdata : r.data = some N) (hneg : N < 0) :
    loop_body c w r =
      ({ id := N, ack := c.CHPL_MLI_CODE_SHUTDOWN, execute := false, err := r.push_err },
       [Event.pull Sock.main, Event.push Sock.main (Msg.word 8 c.CHPL_MLI_CODE_SHUTDOWN)]) := by
  by_cases he : r.err < 0 <;> simp [loop_body, hdata, hneg, he]

/-! ## The dispatch loop: acknowledgement and termination -/

/-- C1: in every round of the worker loop in which a positive identifier `N` is
received, whatever came before (in particular whatever `ack` an earlier dispatch
left behind), the round performs exactly: the receive, the send of ack `0`
(`CHPL_MLI_CODE_NONE`), and then the call `chpl_mli_sdispatch(N)`; the send
comes before the dispatch. -/
theorem ack_none_before_dispatch (c : chpl_mli_errors) (w0 : Worker)
    (pre : List Round) (r : Round) (rest : List Round) (N : Int)
    (hnone : c.CHPL_MLI_CODE_NONE = 0)
    (hrun : (worker_loop c w0 pre).state.execute = true)
    (hdata : r.data = some N) (hpos : N > 0) :
    (worker_loop c w0 (pre ++ r :: rest)).trace =
      (worker_loop c w0 pre).trace ++
        [Event.pull Sock.main, Event.push Sock.main (Msg.word 8 0), Event.sdispatch N] ++
        (worker_loop c { id := N, ack := r.ret, execute := true, err := r.push_err } rest).trace := by
  rw [worker_loop_append c w0 pre (r :: rest) hrun]
  simp only [worker_loop, hrun, if_true]
  rw [loop_body_positive c _ r N hrun hdata hpos, hnone]
  simp [List.append_assoc]

/-- A witness for C1: after a dispatched request whose dispatch returned `7`, the
request `3` is acknowledged with `0` before it is dispatched. -/
theorem ack_none_before_dispatch_witness :
    (worker_loop example_codes Worker.init ([Round.ok 5 7] ++ Round.ok 3 9 :: [])).trace =
      (worker_loop example_codes Worker.init [Round.ok 5 7]).trace ++
        [Event.pull Sock.main, Event.push Sock.main (Msg.word 8 0), Event.sdispatch 3] ++
        (worker_loop example_codes { id := 3, ack := 9, execute := true, err := 8 } []).trace :=
  ack_none_before_dispatch example_codes Worker.init [Round.ok 5 7] (Round.ok 3 9) [] 3
    (by decide) (by decide) (by decide) (by decide)

/-- C2: in every round of the worker loop in which a negative identifier `N` is
received, the round performs the receive and the send of
`CHPL_MLI_CODE_SHUTDOWN` and nothing else; the loop has then terminated, so the
rounds that follow are never read (no further receive, no dispatch).  When `N`
is the shutdown code itself the value sent equals the value received. -/
theorem shutdown_echo_terminates (c : chpl_mli_errors) (w0 : Worker)
    (pre : List Round) (r : Round) (rest : List Round) (N : Int)
    (hrun : (worker_loop c w0 pre).state.execute = true)
    (hdata : r.data = some N) (hneg : N < 0) :
    (worker_loop c w0 (pre ++ r :: rest)).trace =
      (worker_loop c w0 pre).trace ++
        [Event.pull Sock.main, Event.push Sock.main (Msg.word 8 c.CHPL_MLI_CODE_SHUTDOWN)]
    ∧ (worker_loop c w0 (pre ++ r :: rest)).state.execute = false
    ∧ (worker_loop c w0 (pre ++ r :: rest)).returned = true
    ∧ pulls Sock.main (worker_loop c w0 (pre ++ r :: rest)).trace =
        pulls Sock.main (worker_loop c w0 pre).trace + 1
    ∧ dispatched (worker_loop c w0 (pre ++ r :: rest)).trace =
        dispatched (worker_loop c w0 pre).trace
    ∧ (N = c.CHPL_MLI_CODE_SHUTDOWN →
        (worker_loop c w0 (pre ++ r :: rest)).trace =
          (worker_loop c w0 pre).trace ++
            [Event.pull Sock.main, Event.push Sock.main (Msg.word 8 N)]) := by
  have key : worker_loop c w0 (pre ++ r :: rest) =
      { state := { id := N, ack := c.CHPL_MLI_CODE_SHUTDOWN, execute := false,
                   err := r.push_err },
        trace := (worker_loop c w0 pre).trace ++
          [Event.pull Sock.main, Event.push Sock.main (Msg.word 8 c.CHPL_MLI_CODE_SHUTDOWN)],
        returned := true } := by
    rw [worker_loop_append c w0 pre (r :: rest) hrun]
    simp only [worker_loop, hrun, if_true]
    rw [loop_body_negative c _ r N hdata hneg]
    rw [worker_loop_stopped c _ rest rfl]
    simp
  rw [key]
  refine ⟨rfl, rfl, rfl, ?_, ?_, ?_⟩
  · simp [pulls, List.count_append]
  · simp [dispatched_append, dispatched]
  · intro h; rw [h]

/-- A witness for C2: the shutdown code received after one dispatched request is
echoed and ends the loop; the request queued behind it is never read. -/
theorem shutdown_echo_terminates_witness :
    (worker_loop example_codes Worker.init
        ([Round.ok 5 7] ++ Round.ok (-3) 0 :: [Round.ok 4 0])).trace =
      (worker_loop example_codes Worker.init [Round.ok 5 7]).trace ++
        [Event.pull Sock.main, Event.push Sock.main (Msg.word 8 (-3))] :=
  (shutdown_echo_terminates example_codes Worker.init [Round.ok 5 7] (Round.ok (-3) 0)
    [Round.ok 4 0] (-3) (by decide) (by decide) (by decide)).2.2.2.2.2 (by decide)

/-- C5: a receive that fails and leaves `id` untouched makes the loop act on the
identifier of the round before.  After the request `5` has been received and
dispatched, one failed receive dispatches `5` a second time, although the only
positive identifier received is `5`, once. -/
theorem stale_id_dispatched_again (c : chpl_mli_errors) :
    dispatched (worker_loop c Worker.init [Round.ok 5 0, Round.fail 0]).trace = [5, 5]
    ∧ (worker_loop c Worker.init [Round.ok 5 0, Round.fail 0]).trace =
        [Event.pull Sock.main, Event.push Sock.main (Msg.word 8 c.CHPL_MLI_CODE_NONE),
         Event.sdispatch 5,
         Event.pull Sock.main, Event.push Sock.main (Msg.word 8 c.CHPL_MLI_CODE_NONE),
         Event.sdispatch 5] := by
  constructor <;>
    simp [worker_loop, loop_body, Worker.init, Round.ok, Round.fail, dispatched]

/-- C6: a failed receive is not acknowledged with `CHPL_MLI_CODE_ESOCKET`: the
store of that code into `ack` is overwritten before the send.  When the first
receive of the session fails, `id` still holds its initial `-1`, so the ack sent
is `CHPL_MLI_CODE_SHUTDOWN` and the loop terminates; when a failed receive
follows the request `5`, the ack sent is `CHPL_MLI_CODE_NONE`. -/
theorem failed_receive_ack_overwritten (c : chpl_mli_errors) :
    (worker_loop c Worker.init [Round.fail 0]).trace =
        [Event.pull Sock.main, Event.push Sock.main (Msg.word 8 c.CHPL_MLI_CODE_SHUTDOWN)]
    ∧ (worker_loop c Worker.init [Round.fail 0]).state.execute = false
    ∧ (worker_loop c Worker.init [Round.fail 0]).returned = true
    ∧ (loop_body c { id := 5, ack := 0, execute := true, err := 8 } (Round.fail 0)).2 =
        [Event.pull Sock.main, Event.push Sock.main (Msg.word 8 c.CHPL_MLI_CODE_NONE),
         Event.sdispatch 5] := by
  refine ⟨?_, ?_, ?_, ?_⟩ <;>
    simp [worker_loop, loop_body, Worker.init, Round.fail]

/-! ## Lemmas on address records -/

theorem strlen_of_nul_free (s : List Char) (h : NUL ∉ s) : strlen s = s.length := by
  unfold strlen
  induction s with
  | nil => rfl
  | cons ch s ih =>
    have h1 : (ch != NUL) = true := bne_iff_ne.mpr (fun e => h (by simp [e]))
    have h2 : NUL ∉ s := fun m => h (List.mem_cons_of_mem _ m)
    simp [List.takeWhile_cons, h1, ih h2]

theorem to_int_of_fits (n : Int) (h0 : 0 ≤ n) (h1 : n < 2 ^ 31) : to_int n = n := by
  unfold to_int
  omega

theorem push_connection_ok (s : CStr) (hnul : NUL ∉ s) (hfit : (s.length : Int) + 1 < 2 ^ 31) :
    chpl_mli_push_connection s =
      { state := (),
        trace := [Event.push Sock.setup_sock (Msg.word 4 ((s.length : Int) + 1)),
                  Event.push Sock.setup_sock (Msg.bytes (s ++ [NUL]))],
        returned := true } := by
  have hlen : to_int ((strlen s : Int) + 1) = (s.length : Int) + 1 := by
    rw [strlen_of_nul_free s hnul]
    exact to_int_of_fits _ (by omega) hfit
  have hpos : ¬ ((s.length : Int) + 1 < 0) := by omega
  have htake : List.take ((s.length : Int) + 1).toNat (s ++ [NUL]) = s ++ [NUL] := by
    apply List.take_of_length_le
    simp
  simp only [chpl_mli_push_connection, hlen, hpos, if_false, htake]

theorem store_all_size (b : Block) (i : Nat) (l : List Char) :
    (b.store_all i l).size = b.size := by
  induction l generalizing b i with
  | nil => rfl
  | cons ch l ih => simp [Block.store_all, ih, Block.store]

theorem store_all_stores (b : Block) (i : Nat) (l : List Char) :
    (b.store_all i l).stores = b.stores ++ List.range' i l.length := by
  induction l generalizing b i with
  | nil => simp [Block.store_all]
  | cons ch l ih => simp [Block.store_all, ih, Block.store, List.range']

theorem store_all_mem (b : Block) (i : Nat) (l : List Char) (j : Nat) :
    (b.store_all i l).mem j = if i ≤ j then l.getD (j - i) (b.mem j) else b.mem j := by
  induction l generalizing b i with
  | nil => simp [Block.store_all]
  | cons ch l ih =>
    simp only [Block.store_all, ih, Block.store]
    by_cases h1 : i + 1 ≤ j
    · have h2 : i ≤ j := by omega
      have h3 : j ≠ i := by omega
      have h4 : j - i = (j - (i + 1)) + 1 := by omega
      simp only [h1, h2, if_true, h3, if_false]
      rw [h4, List.getD_cons_succ]
    · by_cases h2 : j = i
      · subst h2
        simp
      · have h3 : ¬ i ≤ j := by omega
        simp [h1, h2, h3]

theorem pull_connection_record (heap : Nat → Char) (L : Nat) (b : List Char) (q : List Msg) :
    chpl_mli_pull_connection heap (Msg.word 4 (L : Int) :: Msg.bytes b :: q) =
      { conn := some (pulled_block heap L b), queue := q,
        trace := [Event.pull Sock.setup_sock, Event.pull Sock.setup_sock] } := by
  have h : ¬ ((L : Int) < 0) := by omega
  simp [chpl_mli_pull_connection, chpl_mli_pull_int, chpl_mli_pull_chars, h, pulled_block]

theorem pull_connection_record_succ (heap : Nat → Char) (n : Nat) (b : List Char)
    (q : List Msg) :
    chpl_mli_pull_connection heap (Msg.word 4 ((n : Int) + 1) :: Msg.bytes b :: q) =
      { conn := some (pulled_block heap (n + 1) b), queue := q,
        trace := [Event.pull Sock.setup_sock, Event.pull Sock.setup_sock] } := by
  have h := pull_connection_record heap (n + 1) b q
  rw [Nat.cast_succ] at h
  exact h

theorem pulled_block_c_str (heap : Nat → Char) (s : CStr) (hnul : NUL ∉ s) :
    (pulled_block heap (s.length + 1) (s ++ [NUL])).c_str = s := by
  have hmap : (List.range (s.length + 1 + 1)).map
      (pulled_block heap (s.length + 1) (s ++ [NUL])).mem = s ++ [NUL, NUL] := by
    apply List.ext_getElem
    · simp
    · intro n h1 h2
      simp only [List.length_map, List.length_range] at h1
      simp only [List.getElem_map, List.getElem_range, pulled_block, Block.store,
        store_all_mem]
      have ht : List.take (s.length + 1) (s ++ [NUL]) = s ++ [NUL] := by
        apply List.take_of_length_le
        simp
      rw [ht]
      by_cases h3 : n = s.length + 1
      · subst h3
        simp [List.getElem_append_right]
      · simp only [h3, if_false, Nat.zero_le, if_true, Nat.sub_zero]
        have h4 : n < (s ++ [NUL]).length := by simp; omega
        rw [List.getD_eq_getElem _ _ h4]
        by_cases h5 : n < s.length
        · simp [List.getElem_append_left, h5]
        · have h6 : n = s.length := by omega
          subst h6
          simp [List.getElem_append_right]
  have hsize : (pulled_block heap (s.length + 1) (s ++ [NUL])).size = s.length + 1 := by
    simp [pulled_block, Block.store, store_all_size]
  unfold Block.c_str
  rw [hsize, hmap]
  have : ∀ (l t : List Char), NUL ∉ l →
      List.takeWhile (fun ch => ch != NUL) (l ++ NUL :: t) = l := by
    intro l t
    induction l with
    | nil => intro _; simp [List.takeWhile]
    | cons ch l ih =>
      intro h
      have h1 : (ch != NUL) = true := bne_iff_ne.mpr (fun e => h (by simp [e]))
      have h2 : NUL ∉ l := fun m => h (List.mem_cons_of_mem _ m)
      simp [List.takeWhile_cons, h1, ih h2]
  exact this s [NUL] hnul

/-! ## Address records: round trip and buffer bounds -/

/-- C3: for every NUL-free address string `s` whose length plus one fits in an
`int`, `chpl_mli_push_connection s` sends the length `strlen(s) + 1` and then
that many bytes (the string and its terminator); `chpl_mli_pull_connection`,
given these two messages unchanged and in order, returns a pointer at which the
C string read is `s`, and leaves nothing queued. -/
theorem address_record_round_trip (s : CStr) (heap : Nat → Char)
    (hnul : NUL ∉ s) (hfit : (s.length : Int) + 1 < 2 ^ 31) :
    (chpl_mli_push_connection s).returned = true
    ∧ pushed Sock.setup_sock (chpl_mli_push_connection s).trace =
        [Msg.word 4 ((s.length : Int) + 1), Msg.bytes (s ++ [NUL])]
    ∧ ∃ conn : Block,
        (chpl_mli_pull_connection heap
            (pushed Sock.setup_sock (chpl_mli_push_connection s).trace)).conn = some conn
        ∧ conn.c_str = s
        ∧ (chpl_mli_pull_connection heap
            (pushed Sock.setup_sock (chpl_mli_push_connection s).trace)).queue = [] := by
  rw [push_connection_ok s hnul hfit]
  refine ⟨rfl, by simp [pushed], ?_⟩
  have hq : pushed Sock.setup_sock
      [Event.push Sock.setup_sock (Msg.word 4 ((s.length : Int) + 1)),
       Event.push Sock.setup_sock (Msg.bytes (s ++ [NUL]))] =
      [Msg.word 4 ((s.length : Int) + 1), Msg.bytes (s ++ [NUL])] := by
    simp [pushed]
  simp only [hq, pull_connection_record_succ]
  exact ⟨_, rfl, pulled_block_c_str heap s hnul, trivial⟩

/-- A witness for C3 at total lengths `L = 1` (the empty address), `L = 16` and
`L = 255`: in each case the string read back is the string pushed. -/
theorem address_record_round_trip_witness :
    (∃ conn : Block,
        (chpl_mli_pull_connection (fun _ => NUL)
            (pushed Sock.setup_sock (chpl_mli_push_connection []).trace)).conn = some conn
        ∧ conn.c_str = [])
    ∧ (∃ conn : Block,
        (chpl_mli_pull_connection (fun _ => NUL)
            (pushed Sock.setup_sock
              (chpl_mli_push_connection "tcp://host:4242".toList).trace)).conn = some conn
        ∧ conn.c_str = "tcp://host:4242".toList)
    ∧ (∃ conn : Block,
        (chpl_mli_pull_connection (fun _ => NUL)
            (pushed Sock.setup_sock
              (chpl_mli_push_connection (List.replicate 254 (Char.ofNat 97))).trace)).conn
          = some conn
        ∧ conn.c_str = List.replicate 254 (Char.ofNat 97)) := by
  refine ⟨?_, ?_, ?_⟩
  · obtain ⟨conn, h1, h2, _⟩ :=
      (address_record_round_trip [] (fun _ => NUL) (by decide) (by decide)).2.2
    exact ⟨conn, h1, h2⟩
  · obtain ⟨conn, h1, h2, _⟩ :=
      (address_record_round_trip "tcp://host:4242".toList (fun _ => NUL)
        (by decide) (by decide)).2.2
    exact ⟨conn, h1, h2⟩
  · obtain ⟨conn, h1, h2, _⟩ :=
      (address_record_round_trip (List.replicate 254 (Char.ofNat 97)) (fun _ => NUL)
        (fun h => absurd (List.eq_of_mem_replicate h) (by decide))
        (by rw [List.length_replicate]; decide)).2.2
    exact ⟨conn, h1, h2⟩

/-- C10: for every length prefix `L` and every payload, the stores made by
`chpl_mli_pull_connection` into the block of `L` bytes are the received bytes at
offsets below `L` followed by the terminator at offset `L` itself, one past the
end of the allocation: the stores are not all in bounds. -/
theorem terminator_store_out_of_bounds (heap : Nat → Char) (L : Nat) (b : List Char)
    (q : List Msg) :
    ∃ conn : Block,
      (chpl_mli_pull_connection heap (Msg.word 4 (L : Int) :: Msg.bytes b :: q)).conn = some conn
      ∧ conn.size = L
      ∧ conn.stores = List.range (min L b.length) ++ [L]
      ∧ conn.in_bounds = false := by
  rw [pull_connection_record]
  refine ⟨_, rfl, ?_, ?_, ?_⟩
  · simp [pulled_block, Block.store, store_all_size]
  · simp [pulled_block, Block.store, store_all_stores, List.range_eq_range']
  · simp [Block.in_bounds, pulled_block, Block.store, store_all_size]

/-! ## Lemmas on `chpl_library_init` -/

theorem copy_args_spec (argv : List CStr) (n i k : Nat) (hi : i + n = argv.length) :
    copy_args argv n i ((argv.take i).map some ++ List.replicate (n + k) none) =
      argv.map some ++ List.replicate k none := by
  induction n generalizing i with
  | zero =>
    have : i = argv.length := by omega
    subst this
    simp [copy_args]
  | succ n ih =>
    have hlt : i < argv.length := by omega
    have hlen : ((argv.take i).map some : List (Option CStr)).length = i := by
      simp [List.length_take]
      omega
    have hset : (List.map some (List.take i argv) ++ List.replicate (n + 1 + k) none).set i
        argv[i]? = (argv.take (i + 1)).map some ++ List.replicate (n + k) none := by
      rw [List.set_append_right _ _ (by omega), hlen, Nat.sub_self]
      have hr : n + 1 + k = (n + k) + 1 := by omega
      have hts : argv.take (i + 1) = argv.take i ++ [argv[i]] := by
        rw [List.take_succ, List.getElem?_eq_getElem hlt]
        rfl
      rw [hr, List.replicate_succ, List.set_cons_zero, hts, List.getElem?_eq_getElem hlt]
      simp only [List.map_append, List.map_cons, List.map_nil, List.append_assoc,
        List.singleton_append]
    simp only [copy_args]
    rw [hset]
    exact ih (i + 1) (by omega)

theorem argv_plus_sock_eq (argv : List CStr) (setup_sock_conn : CStr) :
    argv_plus_sock argv setup_sock_conn =
      argv.map some ++ [some socket_loc_flag, some setup_sock_conn] := by
  have h := copy_args_spec argv argv.length 0 2 (by omega)
  simp only [List.take_zero, List.map_nil, List.nil_append] at h
  simp only [argv_plus_sock, h]
  have hlen : (argv.map some : List (Option CStr)).length = argv.length := by simp
  rw [List.set_append_right _ _ (by omega), hlen, Nat.sub_self]
  rw [List.set_append_right _ _ (by omega), hlen]
  have : argv.length + 1 - argv.length = 1 := by omega
  rw [this]
  rfl

theorem launches_pull_connection (heap : Nat → Char) (q : List Msg) :
    launches (chpl_mli_pull_connection heap q).trace = [] := by
  simp only [chpl_mli_pull_connection]
  split
  · rfl
  · split
    · rfl
    · split <;> rfl

theorem launches_client_init (client : chpl_mli_context) :
    launches (chpl_mli_client_init client).2 = [] := by
  unfold chpl_mli_client_init
  split <;> rfl

/-! ## The launcher call -/

/-- C8: the first call of `chpl_library_init` with a vector `argv` (of length
`argc`) calls the launcher exactly once, with count `argc + 2` and a vector that
holds `argv[0..argc-1]` unchanged and in order, then the flag token
`--chpl-mli-socket-loc`, then the address of the bound setup socket. -/
theorem launcher_called_once_with_extended_argv (d : Driver) (argv : List CStr)
    (setup_sock_conn : CStr) (heap : Nat → Char) (main_at arg_at res_at : Nat)
    (q : List Msg) (hfirst : d.initialized = false) :
    launches (chpl_library_init d argv setup_sock_conn heap main_at arg_at res_at q).trace =
      [(argv.length + 2, argv.map some ++ [some socket_loc_flag, some setup_sock_conn])]
    ∧ socket_loc_flag = "--chpl-mli-socket-loc".toList
    ∧ (argv.map some ++ [some socket_loc_flag, some setup_sock_conn]).length
        = argv.length + 2 := by
  refine ⟨?_, rfl, by simp⟩
  simp only [chpl_library_init, hfirst, Bool.false_eq_true, if_false]
  repeat' split
  all_goals
    simp [launches_append, launches_client_init, launches_pull_connection, launches,
      argv_plus_sock_eq]

/-- A witness for C8: a two-entry vector is extended to four entries. -/
theorem launcher_called_once_with_extended_argv_witness :
    launches (chpl_library_init Driver.start ["prog".toList, "-nl4".toList]
        "tcp://host:4242".toList (fun _ => NUL) 4096 4128 4160 []).trace =
      [(["prog".toList, "-nl4".toList].length + 2,
        ["prog".toList, "-nl4".toList].map some ++
          [some socket_loc_flag, some "tcp://host:4242".toList])] :=
  (launcher_called_once_with_extended_argv Driver.start ["prog".toList, "-nl4".toList]
    "tcp://host:4242".toList (fun _ => NUL) 4096 4128 4160 [] (by decide)).1

/-! ## Lemmas on the bootstrap -/

theorem pushed_setup_loop_body (c : chpl_mli_errors) (w : Worker) (r : Round) :
    pushed Sock.setup_sock (loop_body c w r).2 = [] := by
  simp only [loop_body]
  split_ifs <;> simp [pushed]

theorem pushed_setup_worker_loop (c : chpl_mli_errors) (w : Worker) (rs : List Round) :
    pushed Sock.setup_sock (worker_loop c w rs).trace = [] := by
  induction rs generalizing w with
  | nil => simp [worker_loop, pushed]
  | cons r rs ih =>
    unfold worker_loop
    split
    · simp [pushed_append, pushed_setup_loop_body, ih]
    · simp [pushed]

theorem pushed_setup_server_init (server : chpl_mli_context) :
    pushed Sock.setup_sock (chpl_mli_server_init server).2 = [] := by
  unfold chpl_mli_server_init
  split <;> simp [pushed]

theorem pushed_setup_server_deinit (server : chpl_mli_context) :
    pushed Sock.setup_sock (chpl_mli_server_deinit server).2 = [] := by
  unfold chpl_mli_server_deinit
  split <;> simp [pushed]

theorem connects_client_init (client : chpl_mli_context) :
    connects (chpl_mli_client_init client).2 = [] := by
  unfold chpl_mli_client_init
  split <;> rfl

theorem smain_setup_messages (c : chpl_mli_errors) (chpl_server : chpl_mli_context)
    (setup_conn a_main a_arg a_res : CStr) (rounds : List Round)
    (hmain : NUL ∉ a_main) (harg : NUL ∉ a_arg) (hres : NUL ∉ a_res)
    (fmain : (a_main.length : Int) + 1 < 2 ^ 31) (farg : (a_arg.length : Int) + 1 < 2 ^ 31)
    (fres : (a_res.length : Int) + 1 < 2 ^ 31) :
    pushed Sock.setup_sock
        (chpl_mli_smain c chpl_server setup_conn a_main a_arg a_res rounds).trace =
      [Msg.word 4 ((a_main.length : Int) + 1), Msg.bytes (a_main ++ [NUL]),
       Msg.word 4 ((a_arg.length : Int) + 1), Msg.bytes (a_arg ++ [NUL]),
       Msg.word 4 ((a_res.length : Int) + 1), Msg.bytes (a_res ++ [NUL])] := by
  simp only [chpl_mli_smain, push_connection_ok a_main hmain fmain,
    push_connection_ok a_arg harg farg, push_connection_ok a_res hres fres, Bool.not_true,
    Bool.false_eq_true, if_false]
  split <;>
    simp [pushed_append, pushed_setup_server_init, pushed_setup_server_deinit,
      pushed_setup_worker_loop, pushed]

/-! ## Lemmas on the shared memory of the address buffers -/

theorem takeWhile_before_nul (l t : List Char) (h : NUL ∉ l) :
    List.takeWhile (fun ch => ch != NUL) (l ++ NUL :: t) = l := by
  induction l with
  | nil => simp [List.takeWhile]
  | cons ch l ih =>
    have h1 : (ch != NUL) = true := bne_iff_ne.mpr (fun e => h (by simp [e]))
    have h2 : NUL ∉ l := fun m => h (List.mem_cons_of_mem _ m)
    simp [List.takeWhile_cons, h1, ih h2]

theorem map_range_agree (f : Nat → Char) (s : List Char)
    (hmem : ∀ j, j ≤ s.length → f j = (s ++ [NUL]).getD j NUL) :
    (List.range (s.length + 1 + 1)).map f = s ++ NUL :: [f (s.length + 1)] := by
  apply List.ext_getElem
  · simp
  · intro n h1 h2
    simp only [List.length_map, List.length_range] at h1
    simp only [List.getElem_map, List.getElem_range]
    by_cases h3 : n = s.length + 1
    · subst h3
      simp [List.getElem_append_right]
    · have h4 : n ≤ s.length := by omega
      rw [hmem n h4]
      have h5 : n < (s ++ [NUL]).length := by simp; omega
      rw [List.getD_eq_getElem _ _ h5]
      by_cases h6 : n < s.length
      · simp [List.getElem_append_left, h6]
      · have h7 : n = s.length := by omega
        subst h7
        simp [List.getElem_append_right]

theorem c_str_of_agree (b : Block) (s : List Char) (hnul : NUL ∉ s)
    (hsize : b.size = s.length + 1)
    (hmem : ∀ j, j ≤ s.length → b.mem j = (s ++ [NUL]).getD j NUL) :
    b.c_str = s ∧ b.terminated = true := by
  unfold Block.c_str Block.terminated
  rw [hsize, map_range_agree b.mem s hmem]
  refine ⟨takeWhile_before_nul s _ hnul, ?_⟩
  simp

theorem write_back_pulled (mem : Nat → Char) (p L : Nat) (b : List Char) (a : Nat) :
    write_back mem p (pulled_block (view mem p) L b) a =
      if p ≤ a then
        (if a - p = L then NUL else (b.take L).getD (a - p) (mem a))
      else mem a := by
  unfold write_back pulled_block
  by_cases h : p ≤ a
  · have : p + (a - p) = a := by omega
    simp [h, Block.store, store_all_mem, view, this]
  · simp [h]

theorem write_back_pulled_outside (mem : Nat → Char) (p L : Nat) (b : List Char) (a : Nat)
    (h : a < p ∨ p + L < a) :
    write_back mem p (pulled_block (view mem p) L b) a = mem a := by
  rw [write_back_pulled]
  by_cases h1 : p ≤ a
  · have h2 : ¬ a - p = L := by omega
    have h3 : (b.take L).length ≤ a - p := by
      simp [List.length_take]
      omega
    simp only [h1, if_true, h2, if_false]
    exact List.getD_eq_default _ _ h3
  · simp [h1]

theorem write_back_pulled_inside (mem : Nat → Char) (p : Nat) (s : List Char) (j : Nat)
    (h : j ≤ s.length) :
    write_back mem p (pulled_block (view mem p) (s.length + 1) (s ++ [NUL])) (p + j) =
      (s ++ [NUL]).getD j NUL := by
  rw [write_back_pulled]
  have h1 : p ≤ p + j := by omega
  have h2 : p + j - p = j := by omega
  have h3 : ¬ j = s.length + 1 := by omega
  have ht : List.take (s.length + 1) (s ++ [NUL]) = s ++ [NUL] := by
    apply List.take_of_length_le
    simp
  have h5 : j < (s ++ [NUL]).length := by simp; omega
  simp only [h1, if_true, h2, h3, if_false, ht]
  rw [List.getD_eq_getElem _ _ h5, List.getD_eq_getElem _ _ h5]


/-! ## Bootstrap convergence -/

/-- C4: the worker binds `main`, `arg`, `res` to three distinct fifteen-character
addresses and pushes their records in that order; the driver receives them
unchanged and in order, and `mli_malloc` hands out three disjoint 16-byte blocks
with no gap between them, at 4128, 4112 and 4096.  The store `conn[len]` of the
second call of `chpl_mli_pull_connection` then lands on the first byte of
`main_conn`, that of the third call on the first byte of `arg_conn`:
`chpl_library_init` returns having connected `main` and `arg` to the empty
string, and only `res` to the address the worker bound. -/
theorem bootstrap_adjacent_buffers_lose_addresses :
    connects (chpl_library_init Driver.start ["prog".toList] "tcp://host:0001".toList
        (fun _ => Char.ofNat 120) 4128 4112 4096
        (pushed Sock.setup_sock
          (chpl_mli_smain example_codes chpl_mli_context.zero "tcp://host:0001".toList
            "tcp://host:0002".toList "tcp://host:0003".toList "tcp://host:0004".toList
            []).trace)).trace
      = [(Sock.main, []), (Sock.arg, []), (Sock.res, "tcp://host:0004".toList)]
    ∧ (chpl_library_init Driver.start ["prog".toList] "tcp://host:0001".toList
        (fun _ => Char.ofNat 120) 4128 4112 4096
        (pushed Sock.setup_sock
          (chpl_mli_smain example_codes chpl_mli_context.zero "tcp://host:0001".toList
            "tcp://host:0002".toList "tcp://host:0003".toList "tcp://host:0004".toList
            []).trace)).returned = true := by
  constructor <;> decide

/-- Bootstrap with separated buffers: when no address buffer received later
starts right behind, or overlaps, the bytes up to one past the end of a buffer
received earlier, the driver returns from `chpl_library_init` having connected
`main`, `arg` and `res` to the addresses the worker bound, in that order. -/
theorem bootstrap_converges_on_separated_buffers (c : chpl_mli_errors)
    (chpl_server : chpl_mli_context)
    (d : Driver) (argv : List CStr) (setup_conn a_main a_arg a_res : CStr)
    (heap : Nat → Char) (main_at arg_at res_at : Nat) (rounds : List Round)
    (hfirst : d.initialized = false)
    (hmain : NUL ∉ a_main) (harg : NUL ∉ a_arg) (hres : NUL ∉ a_res)
    (fmain : (a_main.length : Int) + 1 < 2 ^ 31) (farg : (a_arg.length : Int) + 1 < 2 ^ 31)
    (fres : (a_res.length : Int) + 1 < 2 ^ 31)
    (hma : main_at + (a_main.length + 1) ≤ arg_at ∨ arg_at + (a_arg.length + 1) < main_at)
    (hmr : main_at + (a_main.length + 1) ≤ res_at ∨ res_at + (a_res.length + 1) < main_at)
    (har : arg_at + (a_arg.length + 1) ≤ res_at ∨ res_at + (a_res.length + 1) < arg_at) :
    connects (chpl_library_init d argv setup_conn heap main_at arg_at res_at
        (pushed Sock.setup_sock
          (chpl_mli_smain c chpl_server setup_conn a_main a_arg a_res rounds).trace)).trace
        = [(Sock.main, a_main), (Sock.arg, a_arg), (Sock.res, a_res)] := by
  have hq := smain_setup_messages c chpl_server setup_conn a_main a_arg a_res rounds
    hmain harg hres fmain farg fres
  rw [hq]
  simp only [chpl_library_init, hfirst, Bool.false_eq_true, if_false,
      pull_connection_record_succ]
  set m1 := write_back heap main_at
    (pulled_block (view heap main_at) (a_main.length + 1) (a_main ++ [NUL])) with hm1
  set m2 := write_back m1 arg_at
    (pulled_block (view m1 arg_at) (a_arg.length + 1) (a_arg ++ [NUL])) with hm2
  set m3 := write_back m2 res_at
    (pulled_block (view m2 res_at) (a_res.length + 1) (a_res ++ [NUL])) with hm3
  have e1 : ∀ j, j ≤ a_main.length → view m3 main_at j = (a_main ++ [NUL]).getD j NUL := by
    intro j hj
    show m3 (main_at + j) = _
    rw [hm3, write_back_pulled_outside m2 res_at _ _ _ (by omega),
      hm2, write_back_pulled_outside m1 arg_at _ _ _ (by omega), hm1]
    exact write_back_pulled_inside heap main_at a_main j hj
  have e2 : ∀ j, j ≤ a_arg.length → view m3 arg_at j = (a_arg ++ [NUL]).getD j NUL := by
    intro j hj
    show m3 (arg_at + j) = _
    rw [hm3, write_back_pulled_outside m2 res_at _ _ _ (by omega), hm2]
    exact write_back_pulled_inside m1 arg_at a_arg j hj
  have e3 : ∀ j, j ≤ a_res.length → view m3 res_at j = (a_res ++ [NUL]).getD j NUL := by
    intro j hj
    show m3 (res_at + j) = _
    rw [hm3]
    exact write_back_pulled_inside m2 res_at a_res j hj
  have hM := c_str_of_agree
    { size := (pulled_block (view heap main_at) (a_main.length + 1) (a_main ++ [NUL])).size,
      mem := view m3 main_at,
      stores := (pulled_block (view heap main_at) (a_main.length + 1)
        (a_main ++ [NUL])).stores }
    a_main hmain (by simp [pulled_block, Block.store, store_all_size]) e1
  have hA := c_str_of_agree
    { size := (pulled_block (view m1 arg_at) (a_arg.length + 1) (a_arg ++ [NUL])).size,
      mem := view m3 arg_at,
      stores := (pulled_block (view m1 arg_at) (a_arg.length + 1) (a_arg ++ [NUL])).stores }
    a_arg harg (by simp [pulled_block, Block.store, store_all_size]) e2
  have hR := c_str_of_agree
    { size := (pulled_block (view m2 res_at) (a_res.length + 1) (a_res ++ [NUL])).size,
      mem := view m3 res_at,
      stores := (pulled_block (view m2 res_at) (a_res.length + 1) (a_res ++ [NUL])).stores }
    a_res hres (by simp [pulled_block, Block.store, store_all_size]) e3
  simp only [hM.1, hM.2, hA.1, hA.2, hR.1, hR.2, Bool.not_true, Bool.false_eq_true, if_false,
    connects_append, connects_client_init, connects, List.nil_append, List.append_nil,
    List.cons_append]

/-- Bootstrap with separated buffers at a concrete input: the same three
addresses, with the three 16-byte blocks handed out in ascending order. -/
theorem bootstrap_converges_on_separated_buffers_witness :
    connects (chpl_library_init Driver.start ["prog".toList] "tcp://host:0001".toList
        (fun _ => Char.ofNat 120) 4096 4112 4128
        (pushed Sock.setup_sock
          (chpl_mli_smain example_codes chpl_mli_context.zero "tcp://host:0001".toList
            "tcp://host:0002".toList "tcp://host:0003".toList "tcp://host:0004".toList
            []).trace)).trace
      = [(Sock.main, "tcp://host:0002".toList), (Sock.arg, "tcp://host:0003".toList),
         (Sock.res, "tcp://host:0004".toList)] :=
  bootstrap_converges_on_separated_buffers example_codes chpl_mli_context.zero Driver.start
    ["prog".toList] "tcp://host:0001".toList "tcp://host:0002".toList
    "tcp://host:0003".toList "tcp://host:0004".toList (fun _ => Char.ofNat 120)
    4096 4112 4128 []
    (by decide) (by decide) (by decide) (by decide) (by decide) (by decide) (by decide)
    (by decide) (by decide) (by decide)

/-! ## Driver shutdown -/

/-- C9: the first call of `chpl_library_finalize` on an initialised session
sends `CHPL_MLI_CODE_SHUTDOWN` on `main`, performs one receive on `main`, then
closes the setup, main, arg and res sockets and destroys the transport context;
the events and the final state are the same for every outcome of the receive,
whether or not the value echoed is the shutdown code. -/
theorem finalize_ignores_echo (c : chpl_mli_errors) (d : Driver) (echo : Reply)
    (hfirst : d.finalized = false) (hctx : d.chpl_client.context = true) :
    (chpl_library_finalize c d echo).trace =
      [Event.push Sock.main (Msg.word 8 c.CHPL_MLI_CODE_SHUTDOWN), Event.pull Sock.main,
       Event.close Sock.setup_sock, Event.close Sock.main, Event.close Sock.arg,
       Event.close Sock.res, Event.ctx_destroy]
    ∧ (chpl_library_finalize c d echo).state =
        { d with finalized := true, chpl_client := { d.chpl_client with context := false } }
    ∧ (chpl_library_finalize c d echo).returned = true
    ∧ ∀ other : Reply,
        (chpl_library_finalize c d other).trace = (chpl_library_finalize c d echo).trace
        ∧ (chpl_library_finalize c d other).state = (chpl_library_finalize c d echo).state := by
  refine ⟨?_, ?_, ?_, ?_⟩ <;>
    simp [chpl_library_finalize, chpl_mli_client_deinit, hfirst, hctx]

/-- A witness for C9: the session set up by `chpl_library_init` is finalised in
the same way when the echo is `0` instead of the shutdown code. -/
theorem finalize_ignores_echo_witness :
    (chpl_library_finalize example_codes
        (chpl_library_init Driver.start [] [] (fun _ => NUL) 4096 4128 4160 []).state
        { err := 8, data := some 0 }).trace =
      [Event.push Sock.main (Msg.word 8 (-3)), Event.pull Sock.main,
       Event.close Sock.setup_sock, Event.close Sock.main, Event.close Sock.arg,
       Event.close Sock.res, Event.ctx_destroy] :=
  (finalize_ignores_echo example_codes
    (chpl_library_init Driver.start [] [] (fun _ => NUL) 4096 4128 4160 []).state
    { err := 8, data := some 0 } (by decide) (by decide)).1

/-! ## Idempotent teardown -/

/-- C7: a call of `chpl_library_finalize` made when `finalized` is already set
performs no event and changes nothing; the first call sets `finalized`.  Hence
over any number (at least one) of calls on an initialised session the shutdown
code is sent once, one receive is made, each of the four sockets is closed once
and the context is destroyed once. -/
theorem finalize_idempotent (c : chpl_mli_errors) (d : Driver) (echo : Reply)
    (later : List Reply)
    (hfirst : d.finalized = false) (hctx : d.chpl_client.context = true) :
    (∀ (d2 : Driver) (e2 : Reply), d2.finalized = true →
        (chpl_library_finalize c d2 e2).trace = []
        ∧ (chpl_library_finalize c d2 e2).state = d2)
    ∧ (chpl_library_finalize c d echo).state.finalized = true
    ∧ (finalize_calls c d (echo :: later)).2 =
        [Event.push Sock.main (Msg.word 8 c.CHPL_MLI_CODE_SHUTDOWN), Event.pull Sock.main,
         Event.close Sock.setup_sock, Event.close Sock.main, Event.close Sock.arg,
         Event.close Sock.res, Event.ctx_destroy]
    ∧ (finalize_calls c d (echo :: later)).1 = (chpl_library_finalize c d echo).state := by
  have noop : ∀ (d2 : Driver) (e2 : Reply), d2.finalized = true →
      (chpl_library_finalize c d2 e2).trace = []
      ∧ (chpl_library_finalize c d2 e2).state = d2 := by
    intro d2 e2 h
    simp [chpl_library_finalize, h]
  have hset : (chpl_library_finalize c d echo).state.finalized = true := by
    simp [chpl_library_finalize, hfirst]
  have calls : ∀ (es : List Reply) (d2 : Driver), d2.finalized = true →
      finalize_calls c d2 es = (d2, []) := by
    intro es
    induction es with
    | nil => intro d2 _; rfl
    | cons e es ih =>
      intro d2 h
      simp only [finalize_calls, (noop d2 e h).1, (noop d2 e h).2, ih d2 h, List.append_nil]
  refine ⟨noop, hset, ?_, ?_⟩
  · simp only [finalize_calls, calls later _ hset, List.append_nil]
    simp [chpl_library_finalize, chpl_mli_client_deinit, hfirst, hctx]
  · simp only [finalize_calls, calls later _ hset]

/-- A witness for C7: three calls on the session set up by `chpl_library_init`. -/
theorem finalize_idempotent_witness :
    (finalize_calls example_codes
        (chpl_library_init Driver.start [] [] (fun _ => NUL) 4096 4128 4160 []).state
        ({ err := 8, data := some (-3) } ::
          [{ err := 8, data := some 0 }, { err := -1, data := none }])).2 =
      [Event.push Sock.main (Msg.word 8 (-3)), Event.pull Sock.main,
       Event.close Sock.setup_sock, Event.close Sock.main, Event.close Sock.arg,
       Event.close Sock.res, Event.ctx_destroy] :=
  (finalize_idempotent example_codes
    (chpl_library_init Driver.start [] [] (fun _ => NUL) 4096 4128 4160 []).state
    { err := 8, data := some (-3) }
    [{ err := 8, data := some 0 }, { err := -1, data := none }]
    (by decide) (by decide)).2.2.1

end MLI
